import Mathlib

/-!
Verification of the codebase ingestion and retrieval pipeline of the
AI_Agents_Assemble repository (backend/app/services/codebase_ingestion.py,
vector_store.py, rag_agent.py), via a shallow embedding in Lean 4.

Bytes read from disk are modelled as `Fin 256`; Python text strings are
Lean `String`s (both are sequences of Unicode codepoints).
-/

/-- A byte of a file on disk. -/
abbrev Byte := Fin 256

/- ### Content Loader: `CodebaseIngestion.read_file_content`
(codebase_ingestion.py, lines 88-100).
The three Python codecs tried are modelled as decoding functions from a byte
list to `Option String` (`none` = the codec raises `UnicodeDecodeError`). -/

/-- Is `b` a UTF-8 continuation byte (`0x80..0xBF`)? -/
def contByte (b : Byte) : Bool := 0x80 ≤ b.val && b.val < 0xC0

/-- Strict UTF-8 decoding of a byte list into codepoints, as performed by
Python's `utf-8` codec: rejects stray continuation bytes, overlong forms,
surrogate codepoints, and codepoints above U+10FFFF. The `fuel` argument
only drives the structural recursion; any `fuel ≥` the list length gives
the decoder's value (a multi-byte sequence consumes more list items than
fuel units, never fewer). -/
def utf8DecodeAux : Nat → List Byte → Option (List Char)
  | _, [] => some []
  | 0, _ :: _ => none
  | fuel + 1, b :: rest =>
    if b.val < 0x80 then
      (utf8DecodeAux fuel rest).map (fun cs => Char.ofNat b.val :: cs)
    else if b.val < 0xC2 then none
    else if b.val < 0xE0 then
      match rest with
      | b1 :: rest1 =>
        if contByte b1 then
          (utf8DecodeAux fuel rest1).map
            (fun cs => Char.ofNat ((b.val - 0xC0) * 0x40 + (b1.val - 0x80)) :: cs)
        else none
      | [] => none
    else if b.val < 0xF0 then
      match rest with
      | b1 :: b2 :: rest2 =>
        if contByte b1 && contByte b2 then
          let cp := (b.val - 0xE0) * 0x1000 + (b1.val - 0x80) * 0x40 + (b2.val - 0x80)
          if cp < 0x800 then none
          else if 0xD800 ≤ cp && cp < 0xE000 then none
          else (utf8DecodeAux fuel rest2).map (fun cs => Char.ofNat cp :: cs)
        else none
      | _ => none
    else if b.val < 0xF5 then
      match rest with
      | b1 :: b2 :: b3 :: rest3 =>
        if contByte b1 && contByte b2 && contByte b3 then
          let cp := (b.val - 0xF0) * 0x40000 + (b1.val - 0x80) * 0x1000 +
            (b2.val - 0x80) * 0x40 + (b3.val - 0x80)
          if cp < 0x10000 then none
          else if 0x10FFFF < cp then none
          else (utf8DecodeAux fuel rest3).map (fun cs => Char.ofNat cp :: cs)
        else none
      | _ => none
    else none

/-- UTF-8 decoding to a string (Python `bytes.decode('utf-8')`). -/
def utf8Decode (bs : List Byte) : Option String :=
  (utf8DecodeAux bs.length bs).map String.mk

/-- Latin-1 maps every byte `0x00..0xFF` to the codepoint of the same value. -/
def latin1String (bs : List Byte) : String :=
  ⟨bs.map (fun b => Char.ofNat b.val)⟩

/-- Python `bytes.decode('latin-1')`: total, every byte has a codepoint. -/
def latin1Decode (bs : List Byte) : Option String :=
  some (latin1String bs)

/-- The cp1252 value of a single byte: bytes outside `0x80..0x9F` decode as in
Latin-1; within that window the Windows-1252 table applies and the five
unassigned bytes (`0x81, 0x8D, 0x8F, 0x90, 0x9D`) raise. -/
def cp1252Char (b : Nat) : Option Char :=
  if b < 0x80 || 0x9F < b then some (Char.ofNat b)
  else match b with
    | 0x80 => some (Char.ofNat 0x20AC)
    | 0x82 => some (Char.ofNat 0x201A)
    | 0x83 => some (Char.ofNat 0x0192)
    | 0x84 => some (Char.ofNat 0x201E)
    | 0x85 => some (Char.ofNat 0x2026)
    | 0x86 => some (Char.ofNat 0x2020)
    | 0x87 => some (Char.ofNat 0x2021)
    | 0x88 => some (Char.ofNat 0x02C6)
    | 0x89 => some (Char.ofNat 0x2030)
    | 0x8A => some (Char.ofNat 0x0160)
    | 0x8B => some (Char.ofNat 0x2039)
    | 0x8C => some (Char.ofNat 0x0152)
    | 0x8E => some (Char.ofNat 0x017D)
    | 0x91 => some (Char.ofNat 0x2018)
    | 0x92 => some (Char.ofNat 0x2019)
    | 0x93 => some (Char.ofNat 0x201C)
    | 0x94 => some (Char.ofNat 0x201D)
    | 0x95 => some (Char.ofNat 0x2022)
    | 0x96 => some (Char.ofNat 0x2013)
    | 0x97 => some (Char.ofNat 0x2014)
    | 0x98 => some (Char.ofNat 0x02DC)
    | 0x99 => some (Char.ofNat 0x2122)
    | 0x9A => some (Char.ofNat 0x0161)
    | 0x9B => some (Char.ofNat 0x203A)
    | 0x9C => some (Char.ofNat 0x0153)
    | 0x9E => some (Char.ofNat 0x017E)
    | 0x9F => some (Char.ofNat 0x0178)
    | _ => none

/-- Python `bytes.decode('cp1252')`: fails iff some byte is unassigned. -/
def cp1252Decode (bs : List Byte) : Option String :=
  (bs.mapM (fun b => cp1252Char b.val)).map String.mk

/-- Single left-to-right pass turning `\r\n` and lone `\r` into `\n`. -/
def translateNewlines : List Char → List Char
  | [] => []
  | '\r' :: '\n' :: rest => '\n' :: translateNewlines rest
  | '\r' :: rest => '\n' :: translateNewlines rest
  | c :: rest => c :: translateNewlines rest

/-- Universal-newline translation performed by `open(path, 'r')` in text
mode: `\r\n` and lone `\r` become `\n`. -/
def universalNewlines (s : String) : String :=
  ⟨translateNewlines s.data⟩

/-- The codecs tried by `read_file_content`, in source order. -/
inductive PyEncoding
  | utf8
  | latin1
  | cp1252
deriving DecidableEq

/-- Dispatch a codec name to its decoding function. -/
def decode_with : PyEncoding → List Byte → Option String
  | .utf8 => utf8Decode
  | .latin1 => latin1Decode
  | .cp1252 => cp1252Decode

/-- The `for encoding in encodings` loop of `read_file_content`: return the
(newline-translated) text of the first codec that succeeds; `""` if all of
them raise. -/
def read_file_content_go : List PyEncoding → List Byte → String
  | [], _ => ""
  | e :: rest, bs =>
    match decode_with e bs with
    | some s => universalNewlines s
    | none => read_file_content_go rest bs

/-- `encodings = ['utf-8', 'latin-1', 'cp1252']` (line 90). -/
def encodings : List PyEncoding := [.utf8, .latin1, .cp1252]

/-- `CodebaseIngestion.read_file_content` (lines 88-100): read a file's bytes
with encoding fallback, returning `""` when every codec raises. -/
def read_file_content (bs : List Byte) : String :=
  read_file_content_go encodings bs

/- ### Python string helpers.
Python `str.lower`, `str.strip` and `str.isalnum` are Unicode-aware; they
are modelled on their ASCII behaviour (`Char.toLower`, ASCII whitespace,
`Char.isAlphanum`), which coincides with Python on ASCII input and does not
affect any claim. -/

/-- Python `str.lower()` (character-wise). -/
def pyLower (s : String) : String := ⟨s.data.map Char.toLower⟩

/-- Whitespace characters stripped by Python's `str.strip()`. -/
def isPySpace (c : Char) : Bool :=
  c = ' ' || c = '\t' || c = '\n' || c = '\x0d' || c = '\x0b' || c = '\x0c'

/-- Python `str.strip()`: remove leading and trailing whitespace. -/
def pyStrip (s : String) : String :=
  ⟨((s.data.dropWhile isPySpace).reverse.dropWhile isPySpace).reverse⟩

/-- Python slicing `s[:n]` (codepoint-based, like Lean's char list). -/
def pySlice (s : String) (n : Nat) : String := ⟨s.data.take n⟩

/- ### File Filter: `CodebaseIngestion.should_process_file`
(codebase_ingestion.py, lines 10-31 and 64-86). -/

/-- `CODE_EXTENSIONS` (lines 11-17). -/
def CODE_EXTENSIONS : List String :=
  [".py", ".js", ".jsx", ".ts", ".tsx", ".java", ".cpp", ".c", ".h", ".hpp",
   ".cs", ".go", ".rs", ".rb", ".php", ".swift", ".kt", ".scala", ".r",
   ".html", ".css", ".scss", ".sass", ".vue", ".svelte",
   ".json", ".yaml", ".yml", ".toml", ".xml", ".md", ".txt",
   ".sql", ".sh", ".bash", ".ps1", ".dockerfile"]

/-- `IGNORE_DIRS` (lines 20-25). -/
def IGNORE_DIRS : List String :=
  ["node_modules", "__pycache__", ".git", ".venv", "venv", "env",
   "dist", "build", "target", ".next", ".nuxt", "out",
   "coverage", ".pytest_cache", ".mypy_cache", ".tox",
   "vendor", "packages", "bin", "obj"]

/-- `IGNORE_FILES` (lines 28-31). -/
def IGNORE_FILES : List String :=
  [".DS_Store", "package-lock.json", "yarn.lock", "poetry.lock",
   "Pipfile.lock", ".gitignore", ".env", ".env.local"]

/-- One regular file met by the `root_path.rglob('*')` walk, together with
the facts `should_process_file` and `process_codebase` inspect about it:
`name` = `file_path.name`, `suffix` = `file_path.suffix` (with the dot),
`parentNames` = the names of its ancestor directories, `size` = the result of
`file_path.stat().st_size` (`none` = the stat call raised), `bytes` = the raw
file contents, and `relPath` = `str(file_path.relative_to(root_path))`
(`none` = `relative_to` raised `ValueError`). -/
structure FileEntry where
  name : String
  suffix : String
  parentNames : List String
  size : Option Nat
  bytes : List Byte
  relPath : Option String

/-- `CodebaseIngestion.should_process_file` (lines 64-86): extension
allow-list (case-insensitive), file deny-list, ancestor-directory deny-list,
then the 1,000,000-byte size cap with a stat failure rejecting the file. -/
def should_process_file (f : FileEntry) : Bool :=
  if pyLower f.suffix ∈ CODE_EXTENSIONS then
    if f.name ∈ IGNORE_FILES then false
    else if f.parentNames.any (fun p => decide (p ∈ IGNORE_DIRS)) then false
    else
      match f.size with
      | none => false
      | some sz => if sz > 1000000 then false else true
  else false

/- ### Chunker
The splitter is `langchain_text_splitters.RecursiveCharacterTextSplitter(
chunk_size=1500, chunk_overlap=200, length_function=len, separators=[...])`
(codebase_ingestion.py, lines 38-43) - a third-party dependency whose code is
not part of this repository. -/

/-- Modelled from the spec: the Chunker `split` of the third-party
`RecursiveCharacterTextSplitter` (chunk size 1500, overlap 200) is not in the
repository sources; section 4.3 of the spec states that a text shorter than
the chunk size yields exactly one chunk equal to the text, and that longer
texts are cut into bounded chunks with 200 characters of overlap between
consecutive chunks. -/
def splitText (t : String) : List String :=
  if t.length < 1500 then [t]
  else (List.range ((t.length - 200 + 1299) / 1300)).map
    (fun i => ⟨(t.data.drop (i * 1300)).take 1500⟩)

/- ### Ingestion Orchestrator: `CodebaseIngestion.process_codebase`
(codebase_ingestion.py, lines 102-153). The splitter is a parameter so the
theorems hold for every splitter behaviour. -/

/-- The metadata dict built for one chunk (lines 143-149). -/
structure ChunkMetadata where
  file_path : String
  file_name : String
  file_extension : String
  chunk_index : Nat
  total_chunks : Nat
deriving DecidableEq

/-- The body of the walk for a single file `f`, entered with the current
global `chunk_id` counter (lines 118-151): filter, read, skip blank content,
split, and emit the per-chunk triples. The i-th id is
`chunk_{chunk_id + i}` because the counter increments once per chunk. -/
def process_file (split : String → List String) (f : FileEntry) (chunk_id : Nat) :
    List String × List ChunkMetadata × List String :=
  if should_process_file f = false then ([], [], [])
  else
    let content := read_file_content f.bytes
    if pyStrip content = "" then ([], [], [])
    else
      let relative_path := f.relPath.getD f.name
      let chunks := split content
      (chunks,
       (List.range chunks.length).map
         (fun i => ⟨relative_path, f.name, f.suffix, i, chunks.length⟩),
       (List.range chunks.length).map (fun i => "chunk_" ++ Nat.repr (chunk_id + i)))

/-- The walk over all files, threading the global `chunk_id` counter (which
advances by the number of chunks the file contributed). -/
def process_go (split : String → List String) :
    List FileEntry → Nat → List String × List ChunkMetadata × List String
  | [], _ => ([], [], [])
  | f :: rest, chunk_id =>
    let r := process_file split f chunk_id
    let r2 := process_go split rest (chunk_id + r.1.length)
    (r.1 ++ r2.1, r.2.1 ++ r2.2.1, r.2.2 ++ r2.2.2)

/-- `CodebaseIngestion.process_codebase` (lines 102-153): returns the
`(all_chunks, all_metadatas, all_ids)` triple, with `chunk_id` starting
at 0. The walk input is the list of regular files in `rglob` order. -/
def process_codebase (split : String → List String) (files : List FileEntry) :
    List String × List ChunkMetadata × List String :=
  process_go split files 0

/-- Python `l[-n:]`: the last `n` items (all of them when `len(l) < n`). -/
def pyLastN (n : Nat) (l : List α) : List α := l.drop (l.length - n)

/- ### Vector Index: `vector_store.py`. -/

/-- The chromadb client's `delete_collection(name=...)` primitive: the client
state is the list of existing collection names; deleting an absent collection
raises (modelled as `Except.error`). -/
def client_delete_collection (st : List String) (nm : String) :
    Except String (List String) :=
  if nm ∈ st then Except.ok (st.filter (fun c => c ≠ nm))
  else Except.error ("Collection " ++ nm ++ " does not exist.")

/-- The `try/except` wrapper of `VectorStore.delete_collection` around an
arbitrary outcome of the underlying client call: a raised error is printed
and swallowed (the state is left as it was), so no error escapes. -/
def delete_collection_wrap (clientResult : Except String (List String))
    (st : List String) : Except String (List String) :=
  match clientResult with
  | Except.ok st2 => Except.ok st2
  | Except.error _ => Except.ok st

/-- `VectorStore.delete_collection` (vector_store.py, lines 100-105). -/
def delete_collection (st : List String) (nm : String) :
    Except String (List String) :=
  delete_collection_wrap (client_delete_collection st nm) st

/-- `create_collection_name` (vector_store.py, lines 112-125). `md5hex` is
Python's `hashlib.md5(...).hexdigest()` (an external hash primitive, passed
as a parameter), `timestamp` is `int(time.time())`. -/
def create_collection_name (md5hex : String → String) (user_id : Int)
    (project_name : String) (timestamp : Nat) : String :=
  let unique_str := toString user_id ++ "_" ++ project_name ++ "_" ++ Nat.repr timestamp
  let hash_suffix := pySlice (md5hex unique_str) 8
  let safe_name0 := pySlice ⟨(pyLower project_name).data.map (fun c => if c = ' ' then '_' else c)⟩ 30
  let safe_name : String := ⟨safe_name0.data.filter (fun c => c.isAlphanum || c = '_' || c = '-')⟩
  "user" ++ toString user_id ++ "_" ++ safe_name ++ "_" ++ hash_suffix

/- ### Retriever: `CodebaseArchitectAgent.retrieve_context`
(rag_agent.py, lines 83-117). Only the relevant-files component is modelled;
the context block is a formatted string around the same iteration (its
relevance scores are floats and play no role in the claims). -/

/-- One ranked hit of `results` as seen by the `zip` at lines 99-103:
a document, its metadata's `file_path` (`none` = key absent, in which case
`metadata.get('file_path', 'unknown')` yields `"unknown"`), and the file
extension used for the code fence. -/
structure SearchHit where
  document : String
  file_path : Option String
  file_extension : String
deriving DecidableEq

/-- `metadata.get('file_path', 'unknown')` (line 104). -/
def hit_file_path (h : SearchHit) : String := h.file_path.getD "unknown"

/-- The distinct elements of the remaining list that have not been seen
yet, in order of first appearance. -/
def dedupFirstAux (seen : List String) : List String → List String
  | [] => []
  | a :: l =>
    if a ∈ seen then dedupFirstAux seen l
    else a :: dedupFirstAux (a :: seen) l

/-- The distinct elements of a list in order of first appearance. -/
def dedupFirst (l : List String) : List String := dedupFirstAux [] l

/-- The CONTENTS of the Python set `file_paths` after the loop of lines
99-114: the distinct `file_path` values of the hits. -/
def retrieve_files_set (hits : List SearchHit) : List String :=
  dedupFirst (hits.map hit_file_path)

/-- The possible values of `list(file_paths)` returned at line 117: a Python
set iterates its elements exactly once each, but in an unspecified
(hash-dependent) order, so every enumeration of the distinct `file_path`
values is a possible output of `retrieve_context`. -/
def retrieve_files_outputs (hits : List SearchHit) (out : List String) : Prop :=
  out.Perm (retrieve_files_set hits)

/- ### Answer Composer: `CodebaseArchitectAgent.analyze` and
`CodebaseArchitectAgent._fallback_gemini_call` (rag_agent.py, lines 119-238).
The generation capability is a parameter mapping (system instruction, prompt)
to a reply or a raised error; `analyze`'s primary path is the Agno agent
constructed with `instructions=SYSTEM_PROMPT` (line 76-81), its fallback is
the direct Gemini model with `system_instruction=self.SYSTEM_PROMPT`. -/

/-- `CodebaseArchitectAgent.SYSTEM_PROMPT` (rag_agent.py, lines 30-63). -/
def SYSTEM_PROMPT : String :=
  "# CODEBASE ARCHITECT & SENIOR DEVELOPER\n\n" ++
  "## **YOUR PURPOSE**\n" ++
  "You are an expert Codebase Architect and Senior Developer with deep understanding of software architecture, design patterns, and best practices. Your role is to help developers understand, debug, and extend their codebases.\n\n" ++
  "## **CORE PRINCIPLES**\n" ++
  "1. **Evidence-Based Reasoning**: Always ground your answers in the actual code provided in the context.\n" ++
  "2. **Comprehensive Analysis**: Consider the full architecture, data flow, and dependencies.\n" ++
  "3. **Practical Guidance**: Provide specific, actionable advice with code examples when appropriate.\n" ++
  "4. **Best Practices**: Suggest improvements following industry standards and the project's existing patterns.\n\n" ++
  "## **YOUR CAPABILITIES**\n" ++
  "- **Debugging**: Identify root causes of errors by analyzing code context and data flow\n" ++
  "- **Feature Development**: Suggest implementation strategies that integrate seamlessly with existing code\n" ++
  "- **Code Explanation**: Provide clear, layered explanations from high-level concepts to implementation details\n" ++
  "- **Architecture Review**: Analyze system design and suggest improvements\n" ++
  "- **Refactoring**: Recommend code improvements while maintaining functionality\n\n" ++
  "## **RESPONSE GUIDELINES**\n" ++
  "- Always cite specific files, functions, and line numbers when referencing code\n" ++
  "- Provide step-by-step explanations for complex topics\n" ++
  "- When suggesting changes, show before/after code examples\n" ++
  "- If context is insufficient, clearly state what additional information would help\n" ++
  "- Use markdown formatting for code blocks with appropriate language tags\n" ++
  "- Be concise but thorough - avoid superficial answers\n\n" ++
  "## **CONTEXT USAGE**\n" ++
  "You will be provided with relevant code chunks from the codebase. Use this context to:\n" ++
  "1. Understand the existing architecture and patterns\n" ++
  "2. Identify related components and dependencies\n" ++
  "3. Ensure your suggestions are compatible with the current codebase\n" ++
  "4. Reference specific implementations when answering\n\n" ++
  "Remember: You are a pair programmer helping the developer succeed. Be supportive, precise, and always grounded in the actual code."

/-- The fixed tail of the prompt template of `analyze` (rag_agent.py,
lines 154-200), following the final `---` separator. -/
def ANALYZE_GUIDELINES : String :=
  "Please analyze the code context above and provide an answer. Follow these guidelines:\n\n" ++
  "**Response Length:**\n" ++
  "- For simple questions (greetings, thanks, clarifications): Give a brief, friendly 1-2 sentence response\n" ++
  "- For technical questions: Provide detailed analysis with code examples\n\n" ++
  "**Structure for Technical Answers:**\n" ++
  "1. Start with a brief summary/answer\n" ++
  "2. Use clear headings (##, ###) to organize sections\n" ++
  "3. Reference specific files with backticks: `filename.py`\n" ++
  "4. Use code blocks with language tags for code examples\n" ++
  "5. Use bullet points or numbered lists for clarity\n" ++
  "6. Add emojis sparingly for visual appeal (✅, 🔍, 💡, ⚠️)\n\n" ++
  "**Content Requirements:**\n" ++
  "- Match response length to question complexity\n" ++
  "- For greetings/thanks: Be brief and friendly\n" ++
  "- For technical questions: Reference specific files and provide code examples\n" ++
  "- Be precise, actionable, and easy to understand\n\n" ++
  "**Example Format:**\n" ++
  "```\n" ++
  "## 🔍 Analysis\n\n" ++
  "Brief summary here...\n\n" ++
  "### Key Components\n\n" ++
  "1. **Component Name** (`file.py`)\n" ++
  "   - Description\n" ++
  "   - Code example in proper blocks\n\n" ++
  "### Implementation Details\n\n" ++
  "\\`\\`\\`python\n" ++
  "# Code example with syntax highlighting\n" ++
  "def example():\n" ++
  "    pass\n" ++
  "\\`\\`\\`\n\n" ++
  "### Recommendations\n\n" ++
  "✅ Do this...\n" ++
  "⚠️ Avoid that...\n" ++
  "```\n\n" ++
  "Now provide your analysis:"

/-- One entry of `chat_history`. -/
structure ChatMessage where
  role : String
  content : String

/-- The `conversation_context` built at lines 134-140 (an absent/`None`
history is the empty list): the last 6 messages, role-labelled, each
truncated to its first 200 characters. -/
def renderHistory (chat_history : List ChatMessage) : String :=
  if chat_history.isEmpty then ""
  else
    "\n## CONVERSATION HISTORY\n\n" ++
    String.join ((pyLastN 6 chat_history).map
      (fun msg =>
        "**" ++ (if msg.role = "user" then "User" else "Assistant") ++ "**: " ++
        pySlice msg.content 200 ++ "...\n\n")) ++
    "---\n\n"

/-- The f-string prompt of `analyze` (rag_agent.py, lines 143-200). -/
def buildPrompt (context conversation_context question : String) : String :=
  "## RELEVANT CODE CONTEXT\n\n" ++ context ++ "\n\n---\n\n" ++
  conversation_context ++ "## USER QUESTION\n" ++ question ++ "\n\n---\n\n" ++
  ANALYZE_GUIDELINES

/-- The value returned by `analyze`: `{'reply': ..., 'relevant_files': ...}`. -/
structure AnalyzeResult where
  reply : String
  relevant_files : List String
deriving DecidableEq

/-- `CodebaseArchitectAgent._fallback_gemini_call` (lines 224-238): direct
Gemini invocation with `system_instruction=self.SYSTEM_PROMPT`; on a raised
error, return the apology string embedding the error message. -/
def fallback_gemini_call (gen : String → String → Except String String)
    (prompt : String) (relevant_files : List String) : AnalyzeResult :=
  match gen SYSTEM_PROMPT prompt with
  | Except.ok text => ⟨text, relevant_files⟩
  | Except.error e =>
    ⟨"I apologize, but I encountered an error analyzing the codebase: " ++ e,
     relevant_files⟩

/-- `CodebaseArchitectAgent.analyze` (lines 119-222): build the prompt from
the retrieved context, the rendered history and the question; run the primary
agent (constructed with `instructions=SYSTEM_PROMPT`); on any raised error,
fall back to `_fallback_gemini_call` with the very same prompt. `context` and
`relevant_files` are the two components returned by `retrieve_context`. -/
def analyze (primary fallbackGen : String → String → Except String String)
    (question : String) (chat_history : List ChatMessage)
    (context : String) (relevant_files : List String) : AnalyzeResult :=
  let conversation_context := renderHistory chat_history
  let prompt := buildPrompt context conversation_context question
  match primary SYSTEM_PROMPT prompt with
  | Except.ok reply => ⟨reply, relevant_files⟩
  | Except.error _ => fallback_gemini_call fallbackGen prompt relevant_files

/- ### Auxiliary definitions for decimal representations and concrete
inputs used by witnesses and counterexamples. -/

/-- Numeric value of a decimal digit character. -/
def digitVal (c : Char) : Nat := c.toNat - 48

/-- The number denoted by a most-significant-first decimal digit list. -/
def valDigits (l : List Char) : Nat :=
  l.foldl (fun a c => a * 10 + digitVal c) 0

/-- A stand-in for `hashlib.md5(...).hexdigest()` at concrete inputs: a fixed
32-character hex string (witnesses only need its shape, not its values). -/
def md5Stub : String → String := fun _ => "0123456789abcdef0123456789abcdef"

/-- A small concrete source file: `main.py` containing `print(1)\n`. -/
def demoFile : FileEntry :=
  { name := "main.py", suffix := ".py", parentNames := [], size := some 9,
    bytes := [112, 114, 105, 110, 116, 40, 49, 41, 10], relPath := some "main.py" }

/-- A one-file source tree. -/
def demoFiles : List FileEntry := [demoFile]

/-- Two ranked hits whose file paths appear in the order `b.py`, `a.py`. -/
def demoHits : List SearchHit :=
  [{ document := "doc b", file_path := some "b.py", file_extension := ".py" },
   { document := "doc a", file_path := some "a.py", file_extension := ".py" }]

/-- A primary generation path that always raises. -/
def failPrimary : String → String → Except String String :=
  fun _ _ => Except.error "agno boom"

/-- A fallback generation path that always raises. -/
def failFallback : String → String → Except String String :=
  fun _ _ => Except.error "gemini down"

/- ### Helper lemmas on decimal representations. -/

theorem digitVal_digitChar (d : Nat) (h : d < 10) :
    digitVal (Nat.digitChar d) = d := by
  interval_cases d <;> rfl

theorem isDigit_digitChar (d : Nat) (h : d < 10) :
    (Nat.digitChar d).isDigit = true := by
  interval_cases d <;> rfl

theorem valDigits_append_singleton (l : List Char) (c : Char) :
    valDigits (l ++ [c]) = valDigits l * 10 + digitVal c := by
  simp [valDigits, List.foldl_append]

theorem toDigitsCore_append (n : Nat) : ∀ (fuel : Nat) (ds : List Char), n < fuel →
    Nat.toDigitsCore 10 fuel n ds = Nat.toDigitsCore 10 fuel n [] ++ ds := by
  induction n using Nat.strong_induction_on with
  | _ n ih =>
    intro fuel ds hf
    cases fuel with
    | zero => exact absurd hf (Nat.not_lt_zero n)
    | succ fuel =>
      show Nat.toDigitsCore 10 (fuel + 1) n ds = Nat.toDigitsCore 10 (fuel + 1) n [] ++ ds
      simp only [Nat.toDigitsCore]
      by_cases h0 : n / 10 = 0
      · simp [h0]
      · have hn : 0 < n := by
          rcases Nat.eq_zero_or_pos n with h | h
          · exact absurd (by simp [h]) h0
          · exact h
        have hlt : n / 10 < n := Nat.div_lt_self hn (by norm_num)
        have hfuel : n / 10 < fuel := by omega
        simp only [h0, if_false]
        rw [ih (n / 10) hlt fuel (Nat.digitChar (n % 10) :: ds) hfuel,
            ih (n / 10) hlt fuel [Nat.digitChar (n % 10)] hfuel]
        simp

theorem toDigitsCore_val (n : Nat) : ∀ (fuel : Nat), n < fuel →
    valDigits (Nat.toDigitsCore 10 fuel n []) = n := by
  induction n using Nat.strong_induction_on with
  | _ n ih =>
    intro fuel hf
    cases fuel with
    | zero => exact absurd hf (Nat.not_lt_zero n)
    | succ fuel =>
      show valDigits (Nat.toDigitsCore 10 (fuel + 1) n []) = n
      simp only [Nat.toDigitsCore]
      by_cases h0 : n / 10 = 0
      · have hn10 : n < 10 := by omega
        simp only [h0, if_true]
        show valDigits [Nat.digitChar (n % 10)] = n
        have : valDigits [Nat.digitChar (n % 10)] = digitVal (Nat.digitChar (n % 10)) := by
          simp [valDigits]
        rw [this, digitVal_digitChar (n % 10) (Nat.mod_lt n (by norm_num)),
          Nat.mod_eq_of_lt hn10]
      · have hn : 0 < n := by
          rcases Nat.eq_zero_or_pos n with h | h
          · exact absurd (by simp [h]) h0
          · exact h
        have hlt : n / 10 < n := Nat.div_lt_self hn (by norm_num)
        have hfuel : n / 10 < fuel := by omega
        simp only [h0, if_false]
        rw [toDigitsCore_append (n / 10) fuel [Nat.digitChar (n % 10)] hfuel,
          valDigits_append_singleton, ih (n / 10) hlt fuel hfuel,
          digitVal_digitChar (n % 10) (Nat.mod_lt n (by norm_num))]
        omega

theorem valDigits_repr (n : Nat) : valDigits (Nat.repr n).data = n := by
  have : (Nat.repr n).data = Nat.toDigitsCore 10 (n + 1) n [] := rfl
  rw [this, toDigitsCore_val n (n + 1) (Nat.lt_succ_self n)]

theorem nat_repr_injective : Function.Injective Nat.repr := by
  intro m n h
  have : valDigits (Nat.repr m).data = valDigits (Nat.repr n).data := by rw [h]
  rwa [valDigits_repr, valDigits_repr] at this

theorem toDigitsCore_isDigit (n : Nat) : ∀ (fuel : Nat) (c : Char), n < fuel →
    c ∈ Nat.toDigitsCore 10 fuel n [] → c.isDigit = true := by
  induction n using Nat.strong_induction_on with
  | _ n ih =>
    intro fuel c hf hc
    cases fuel with
    | zero => exact absurd hf (Nat.not_lt_zero n)
    | succ fuel =>
      rw [show Nat.toDigitsCore 10 (fuel + 1) n [] =
        (let d := Nat.digitChar (n % 10); let n2 := n / 10;
         if n2 = 0 then [d] else Nat.toDigitsCore 10 fuel n2 [d]) from rfl] at hc
      by_cases h0 : n / 10 = 0
      · simp only [h0, if_true, List.mem_singleton] at hc
        subst hc
        exact isDigit_digitChar (n % 10) (Nat.mod_lt n (by norm_num))
      · have hn : 0 < n := by
          rcases Nat.eq_zero_or_pos n with h | h
          · exact absurd (by simp [h]) h0
          · exact h
        have hlt : n / 10 < n := Nat.div_lt_self hn (by norm_num)
        have hfuel : n / 10 < fuel := by omega
        simp only [h0, if_false] at hc
        rw [toDigitsCore_append (n / 10) fuel [Nat.digitChar (n % 10)] hfuel,
          List.mem_append] at hc
        rcases hc with hc | hc
        · exact ih (n / 10) hlt fuel c hfuel hc
        · simp only [List.mem_singleton] at hc
          subst hc
          exact isDigit_digitChar (n % 10) (Nat.mod_lt n (by norm_num))

theorem nat_repr_isDigit (n : Nat) (c : Char) (hc : c ∈ (Nat.repr n).data) :
    c.isDigit = true :=
  toDigitsCore_isDigit n (n + 1) c (Nat.lt_succ_self n) hc

theorem int_toString_chars (i : Int) (c : Char) (hc : c ∈ (toString i).data) :
    c.isDigit = true ∨ c = '-' := by
  cases i with
  | ofNat m => exact Or.inl (nat_repr_isDigit m c hc)
  | negSucc m =>
    rw [show toString (Int.negSucc m) = "-" ++ toString (m + 1) from rfl,
      String.data_append, List.mem_append] at hc
    rcases hc with hc | hc
    · simp only [show ("-" : String).data = ['-'] from rfl, List.mem_singleton] at hc
      exact Or.inr hc
    · exact Or.inl (nat_repr_isDigit (m + 1) c hc)

/- ### Helper lemmas on `dedupFirst`. -/

theorem dedupFirstAux_mem (p : String) : ∀ (l seen : List String),
    p ∈ dedupFirstAux seen l ↔ (p ∈ l ∧ p ∉ seen) := by
  intro l
  induction l with
  | nil => intro seen; simp [dedupFirstAux]
  | cons a l ih =>
    intro seen
    rw [dedupFirstAux]
    by_cases ha : a ∈ seen
    · rw [if_pos ha, ih seen]
      constructor
      · rintro ⟨hp, hs⟩
        exact ⟨List.mem_cons_of_mem a hp, hs⟩
      · rintro ⟨hp, hs⟩
        rcases List.mem_cons.mp hp with rfl | hp
        · exact absurd ha hs
        · exact ⟨hp, hs⟩
    · rw [if_neg ha]
      simp only [List.mem_cons, ih (a :: seen)]
      constructor
      · rintro (rfl | ⟨hp, hs⟩)
        · exact ⟨Or.inl rfl, ha⟩
        · exact ⟨Or.inr hp, fun hps => hs (Or.inr hps)⟩
      · rintro ⟨rfl | hp, hs⟩
        · exact Or.inl rfl
        · by_cases hpa : p = a
          · exact Or.inl hpa
          · exact Or.inr ⟨hp, fun h => h.elim hpa hs⟩

theorem dedupFirstAux_nodup : ∀ (l seen : List String),
    (dedupFirstAux seen l).Nodup := by
  intro l
  induction l with
  | nil => intro seen; simp [dedupFirstAux]
  | cons a l ih =>
    intro seen
    rw [dedupFirstAux]
    by_cases ha : a ∈ seen
    · rw [if_pos ha]; exact ih seen
    · rw [if_neg ha]
      refine List.nodup_cons.mpr ⟨fun hmem => ?_, ih (a :: seen)⟩
      exact ((dedupFirstAux_mem a l (a :: seen)).mp hmem).2 (List.mem_cons_self a seen)

theorem dedupFirst_mem (l : List String) (p : String) :
    p ∈ dedupFirst l ↔ p ∈ l := by
  rw [dedupFirst, dedupFirstAux_mem]
  simp

theorem dedupFirst_nodup (l : List String) : (dedupFirst l).Nodup :=
  dedupFirstAux_nodup l []

/- ### Helper lemmas on the ingestion walk. -/

theorem process_file_shape (split : String → List String) (f : FileEntry)
    (cid : Nat) :
    (process_file split f cid).1.length = (process_file split f cid).2.1.length ∧
    (process_file split f cid).1.length = (process_file split f cid).2.2.length ∧
    (process_file split f cid).2.2 =
      (List.range (process_file split f cid).1.length).map
        (fun i => "chunk_" ++ Nat.repr (cid + i)) := by
  unfold process_file
  split
  · simp
  · dsimp only
    split <;> simp

theorem process_go_shape (split : String → List String) (files : List FileEntry) :
    ∀ cid : Nat,
    (process_go split files cid).1.length = (process_go split files cid).2.1.length ∧
    (process_go split files cid).1.length = (process_go split files cid).2.2.length ∧
    (process_go split files cid).2.2 =
      (List.range (process_go split files cid).1.length).map
        (fun k => "chunk_" ++ Nat.repr (cid + k)) := by
  induction files with
  | nil => intro cid; simp [process_go]
  | cons f rest ih =>
    intro cid
    obtain ⟨f1, f2, f3⟩ := process_file_shape split f cid
    obtain ⟨r1, r2, r3⟩ := ih (cid + (process_file split f cid).1.length)
    refine ⟨?_, ?_, ?_⟩
    · simp only [process_go, List.length_append]
      omega
    · simp only [process_go, List.length_append]
      omega
    · simp only [process_go, List.length_append]
      rw [f3, r3, List.range_add, List.map_append, List.map_map]
      congr 1
      apply List.map_congr_left
      intro k _
      simp only [Function.comp_apply]
      congr 2
      omega

theorem process_file_meta (split : String → List String) (f : FileEntry)
    (cid : Nat) :
    ((process_file split f cid).2.1).map ChunkMetadata.chunk_index =
      List.range (process_file split f cid).1.length ∧
    ∀ m ∈ (process_file split f cid).2.1,
      m.total_chunks = (process_file split f cid).1.length := by
  unfold process_file
  split
  · simp
  · dsimp only
    split
    · simp
    · constructor
      · simp [List.map_map, Function.comp_def]
      · intro m hm
        simp only [List.mem_map, List.mem_range] at hm
        obtain ⟨i, _, rfl⟩ := hm
        simp

theorem process_go_meta_bound (split : String → List String)
    (files : List FileEntry) : ∀ cid : Nat,
    ∀ m ∈ (process_go split files cid).2.1, m.chunk_index < m.total_chunks := by
  induction files with
  | nil => intro cid m hm; simp [process_go] at hm
  | cons f rest ih =>
    intro cid m hm
    simp only [process_go, List.mem_append] at hm
    rcases hm with hm | hm
    · obtain ⟨hmap, htot⟩ := process_file_meta split f cid
      have hidx : m.chunk_index ∈
          ((process_file split f cid).2.1).map ChunkMetadata.chunk_index :=
        List.mem_map_of_mem ChunkMetadata.chunk_index hm
      rw [hmap, List.mem_range] at hidx
      rw [htot m hm]
      exact hidx
    · exact ih (cid + (process_file split f cid).1.length) m hm

/- ### Claim theorems. -/

/-- C1 counterexample: the hits `demoHits` mention `b.py` before `a.py`, yet
`["a.py", "b.py"]` is a possible value of `list(file_paths)` (a Python set
enumerates in unspecified order), and it differs from the
first-appearance-ordered list `["b.py", "a.py"]`; so the output is not
always the order-of-first-appearance list. -/
theorem retrieve_files_order_counterexample :
    ¬ (∀ (hits : List SearchHit) (out : List String),
        retrieve_files_outputs hits out → out = retrieve_files_set hits) := by
  intro h
  have hset : retrieve_files_set demoHits = ["b.py", "a.py"] := by decide
  have hperm : retrieve_files_outputs demoHits ["a.py", "b.py"] := by
    show List.Perm ["a.py", "b.py"] (retrieve_files_set demoHits)
    rw [hset]
    exact List.Perm.swap "b.py" "a.py" []
  have := h demoHits ["a.py", "b.py"] hperm
  rw [hset] at this
  exact absurd this (by decide)

/-- C1 (amended): every possible relevant-files output of the Retriever
contains exactly the distinct `file_path` values of the hits - it has no
duplicates, and a path is in the output iff it is the `file_path` of some
hit - but its order is unspecified (it is a Python set enumeration), not
necessarily first-appearance order. -/
theorem retrieve_files_distinct (hits : List SearchHit) (out : List String)
    (h : retrieve_files_outputs hits out) :
    out.Nodup ∧ ∀ p, p ∈ out ↔ p ∈ hits.map hit_file_path := by
  constructor
  · exact h.symm.nodup (dedupFirst_nodup _)
  · intro p
    rw [h.mem_iff]
    exact dedupFirst_mem _ _

/-- C1 witness: the amended theorem applied to the two demo hits and the
reversed enumeration. -/
theorem retrieve_files_distinct_witness :
    retrieve_files_outputs demoHits ["a.py", "b.py"] ∧
      (["a.py", "b.py"] : List String).Nodup := by
  have hperm : retrieve_files_outputs demoHits ["a.py", "b.py"] := by
    show List.Perm ["a.py", "b.py"] (retrieve_files_set demoHits)
    rw [show retrieve_files_set demoHits = ["b.py", "a.py"] from by decide]
    exact List.Perm.swap "b.py" "a.py" []
  exact ⟨hperm, (retrieve_files_distinct demoHits ["a.py", "b.py"] hperm).1⟩

/-- C2: for every splitter behaviour and every source tree,
`process_codebase` returns three equal-length sequences, the id at global
position `n` is the string `chunk_{n}` (counter starting at 0, incremented
once per chunk across the whole run, never reset per file), and the ids are
pairwise distinct. -/
theorem process_codebase_triple (split : String → List String)
    (files : List FileEntry) :
    (process_codebase split files).1.length = (process_codebase split files).2.1.length ∧
    (process_codebase split files).1.length = (process_codebase split files).2.2.length ∧
    (∀ (n : Nat), (hn : n < (process_codebase split files).2.2.length) →
      (process_codebase split files).2.2[n] = "chunk_" ++ Nat.repr n) ∧
    (process_codebase split files).2.2.Nodup := by
  obtain ⟨h1, h2, h3⟩ := process_go_shape split files 0
  unfold process_codebase
  refine ⟨h1, h2, ?_, ?_⟩
  · intro n hn
    rw [List.getElem_of_eq h3 hn]
    simp [List.getElem_map, List.getElem_range]
  · rw [h3]
    refine List.Nodup.map ?_ (List.nodup_range _)
    intro a b hab
    have hdata := congrArg String.data hab
    simp only [String.data_append] at hdata
    have hrepr : Nat.repr (0 + a) = Nat.repr (0 + b) := by
      apply congrArg String.mk
      exact List.append_cancel_left hdata
    have := nat_repr_injective hrepr
    omega

/-- C2 witness: ingesting the one-file demo tree, the id at position 0 is
`chunk_0`. -/
theorem process_codebase_triple_witness :
    0 < (process_codebase splitText demoFiles).2.2.length ∧
    (process_codebase splitText demoFiles).2.2.get ⟨0, by decide⟩ = "chunk_0" := by
  refine ⟨by decide, ?_⟩
  have h := (process_codebase_triple splitText demoFiles).2.2.1 0 (by decide)
  simpa using h

/-- C3: for every splitter behaviour, every file's metadata block has
`chunk_index` values forming exactly the contiguous range `0..n-1` (`n` =
the number of chunks produced for that file), every entry's `total_chunks`
equals `n`, and every metadata record of a whole run satisfies
`chunk_index < total_chunks`. -/
theorem process_metadata_invariant (split : String → List String) :
    (∀ (f : FileEntry) (cid : Nat),
      ((process_file split f cid).2.1).map ChunkMetadata.chunk_index =
        List.range (process_file split f cid).1.length ∧
      ∀ m ∈ (process_file split f cid).2.1,
        m.total_chunks = (process_file split f cid).1.length) ∧
    ∀ (files : List FileEntry), ∀ m ∈ (process_codebase split files).2.1,
      m.chunk_index < m.total_chunks :=
  ⟨fun f cid => process_file_meta split f cid,
   fun files m hm => process_go_meta_bound split files 0 m hm⟩

/-- C3 witness: the single metadata record of the demo ingestion satisfies
the index bound. -/
theorem process_metadata_invariant_witness :
    (⟨"main.py", "main.py", ".py", 0, 1⟩ : ChunkMetadata) ∈
      (process_codebase splitText demoFiles).2.1 ∧ (0 : Nat) < 1 := by
  have hmem : (⟨"main.py", "main.py", ".py", 0, 1⟩ : ChunkMetadata) ∈
      (process_codebase splitText demoFiles).2.1 := by decide
  exact ⟨hmem, (process_metadata_invariant splitText).2 demoFiles _ hmem⟩

/-- C4: a text strictly shorter than the 1500-character chunk size is
returned as a single chunk equal to the text. -/
theorem split_short_text (t : String) (h : t.length < 1500) :
    splitText t = [t] := by
  simp [splitText, h]

/-- C4 witness: the theorem applied to the five-character text `hello`. -/
theorem split_short_text_witness :
    ("hello" : String).length < 1500 ∧ splitText "hello" = ["hello"] :=
  ⟨by decide, split_short_text "hello" (by decide)⟩

/-- C5: `should_process_file` is a total (never-raising) pure predicate of
the path data and stat result, true exactly when the lower-cased extension
is allow-listed, the base name is not deny-listed, no ancestor directory
name is deny-listed, and the stat call succeeded with a size of at most
1,000,000 bytes. -/
theorem should_process_file_iff (f : FileEntry) :
    should_process_file f = true ↔
      (pyLower f.suffix ∈ CODE_EXTENSIONS ∧ f.name ∉ IGNORE_FILES ∧
       (∀ d ∈ f.parentNames, d ∉ IGNORE_DIRS) ∧
       ∃ sz, f.size = some sz ∧ sz ≤ 1000000) := by
  unfold should_process_file
  by_cases h1 : pyLower f.suffix ∈ CODE_EXTENSIONS <;>
    by_cases h2 : f.name ∈ IGNORE_FILES <;>
      rcases hs : f.size with _ | sz <;>
        simp [h1, h2, hs, List.any_eq_true]

/-- C6: the Content Loader tries UTF-8, then Latin-1, then CP1252, in that
fixed order, returns the (newline-translated) text of the first codec that
succeeds, and returns the empty string when all three raise; being a total
function, it never lets a decode error escape. -/
theorem read_file_content_order (bs : List Byte) :
    read_file_content bs =
      (match utf8Decode bs with
       | some s => universalNewlines s
       | none =>
         match latin1Decode bs with
         | some s => universalNewlines s
         | none =>
           match cp1252Decode bs with
           | some s => universalNewlines s
           | none => "") := by
  cases h1 : utf8Decode bs <;>
    simp [read_file_content, read_file_content_go, encodings, decode_with, h1,
      latin1Decode]

/-- C7 counterexample: for the 20-digit user id `10^19` and a 30-character
project name, the generated collection name has length 64, violating the
claimed 63-character upper bound. -/
theorem collection_name_length_counterexample :
    63 < (create_collection_name md5Stub 10000000000000000000
      ⟨List.replicate 30 'a'⟩ 0).length := by
  decide

/-- C7 (amended): the collection name contains only alphanumeric
characters, underscores and hyphens, has length at least 3, ends in the
8-character prefix of the md5 hex digest of
`{user_id}_{project_name}_{timestamp}`, and its length is at most 63
PROVIDED the decimal representation of the user id has at most 19
characters (a user id of 20 or more digits makes the name longer than 63,
as the counterexample shows). -/
theorem collection_name_amended (md5hex : String → String) (user_id : Int)
    (project_name : String) (timestamp : Nat)
    (hlen : (md5hex (toString user_id ++ "_" ++ project_name ++ "_" ++
      Nat.repr timestamp)).length = 32)
    (hchars : ∀ c ∈ (md5hex (toString user_id ++ "_" ++ project_name ++ "_" ++
      Nat.repr timestamp)).data, c.isAlphanum = true) :
    (∀ c ∈ (create_collection_name md5hex user_id project_name timestamp).data,
      c.isAlphanum = true ∨ c = '_' ∨ c = '-') ∧
    3 ≤ (create_collection_name md5hex user_id project_name timestamp).length ∧
    ((toString user_id).length ≤ 19 →
      (create_collection_name md5hex user_id project_name timestamp).length ≤ 63) ∧
    ∃ p : List Char,
      (create_collection_name md5hex user_id project_name timestamp).data =
        p ++ (md5hex (toString user_id ++ "_" ++ project_name ++ "_" ++
          Nat.repr timestamp)).data.take 8 ∧
      ((md5hex (toString user_id ++ "_" ++ project_name ++ "_" ++
        Nat.repr timestamp)).data.take 8).length = 8 := by
  have huser : ∀ c ∈ ("user" : String).data, c.isAlphanum = true := by decide
  have h4 : ("user" : String).length = 4 := rfl
  have hu1 : ("_" : String).length = 1 := rfl
  have hsufLen : (pySlice (md5hex (toString user_id ++ "_" ++ project_name ++
      "_" ++ Nat.repr timestamp)) 8).length = 8 := by
    show ((md5hex (toString user_id ++ "_" ++ project_name ++ "_" ++
      Nat.repr timestamp)).data.take 8).length = 8
    rw [List.length_take]
    have h32 : (md5hex (toString user_id ++ "_" ++ project_name ++ "_" ++
        Nat.repr timestamp)).data.length = 32 := hlen
    omega
  have hsafeLen : ((⟨(((pyLower project_name).data.map
      (fun c => if c = ' ' then '_' else c)).take 30).filter
        (fun c => c.isAlphanum || c = '_' || c = '-')⟩ : String)).length ≤ 30 := by
    show ((((pyLower project_name).data.map
      (fun c => if c = ' ' then '_' else c)).take 30).filter
        (fun c => c.isAlphanum || c = '_' || c = '-')).length ≤ 30
    refine le_trans (List.length_filter_le _ _) ?_
    rw [List.length_take]
    omega
  have hr : create_collection_name md5hex user_id project_name timestamp =
      "user" ++ toString user_id ++ "_" ++
      (⟨(((pyLower project_name).data.map
        (fun c => if c = ' ' then '_' else c)).take 30).filter
          (fun c => c.isAlphanum || c = '_' || c = '-')⟩ : String) ++ "_" ++
      pySlice (md5hex (toString user_id ++ "_" ++ project_name ++ "_" ++
        Nat.repr timestamp)) 8 := rfl
  rw [hr]
  refine ⟨?_, ?_, ?_, ?_⟩
  · intro c hc
    simp only [String.data_append, List.mem_append] at hc
    rcases hc with (((((hc | hc) | hc) | hc) | hc) | hc)
    · exact Or.inl (huser c hc)
    · rcases int_toString_chars user_id c hc with hd | hd
      · exact Or.inl (by simp [Char.isAlphanum, hd])
      · exact Or.inr (Or.inr hd)
    · have hmem : c ∈ ['_'] := hc
      simp only [List.mem_singleton] at hmem
      exact Or.inr (Or.inl hmem)
    · have hcf : c ∈ (((pyLower project_name).data.map
          (fun c => if c = ' ' then '_' else c)).take 30).filter
            (fun c => c.isAlphanum || c = '_' || c = '-') := hc
      have := (List.mem_filter.mp hcf).2
      simp only [Bool.or_eq_true, decide_eq_true_eq] at this
      rcases this with (h | h) | h
      · exact Or.inl h
      · exact Or.inr (Or.inl h)
      · exact Or.inr (Or.inr h)
    · have hmem : c ∈ ['_'] := hc
      simp only [List.mem_singleton] at hmem
      exact Or.inr (Or.inl hmem)
    · have htake : c ∈ (md5hex (toString user_id ++ "_" ++ project_name ++ "_" ++
        Nat.repr timestamp)).data.take 8 := hc
      exact Or.inl (hchars c (List.mem_of_mem_take htake))
  · simp only [String.length_append]
    rw [h4, hu1]
    omega
  · intro hid
    simp only [String.length_append]
    rw [h4, hu1, hsufLen]
    omega
  · refine ⟨("user" ++ toString user_id ++ "_" ++
      (⟨(((pyLower project_name).data.map
        (fun c => if c = ' ' then '_' else c)).take 30).filter
          (fun c => c.isAlphanum || c = '_' || c = '-')⟩ : String) ++ "_").data,
      ?_, ?_⟩
    · simp [String.data_append, pySlice, List.append_assoc]
    · have h8 : (pySlice (md5hex (toString user_id ++ "_" ++ project_name ++
        "_" ++ Nat.repr timestamp)) 8).length = 8 := hsufLen
      exact h8

/-- C7 witness: the amended bounds hold for user id 7, project name
`My Project` and timestamp 0 with the stub digest function. -/
theorem collection_name_amended_witness :
    3 ≤ (create_collection_name md5Stub 7 "My Project" 0).length ∧
    (create_collection_name md5Stub 7 "My Project" 0).length ≤ 63 := by
  have h := collection_name_amended md5Stub 7 "My Project" 0 (by decide) (by decide)
  exact ⟨h.2.1, h.2.2.1 (by decide)⟩
/-- C8: `delete_collection` is idempotent and never raises: whatever the
underlying client deletion returns (success or any raised error), the
wrapper returns normally, and deleting the same collection twice in a row
returns normally both times, the second call leaving the state unchanged
(the collection is already absent). -/
theorem delete_collection_idempotent :
    (∀ (clientResult : Except String (List String)) (st : List String),
      ∃ st2, delete_collection_wrap clientResult st = Except.ok st2) ∧
    (∀ (st : List String) (nm : String),
      ∃ st1 st2, delete_collection st nm = Except.ok st1 ∧
        delete_collection st1 nm = Except.ok st2 ∧ st2 = st1) := by
  constructor
  · intro clientResult st
    cases clientResult with
    | ok st2 => exact ⟨st2, rfl⟩
    | error e => exact ⟨st, rfl⟩
  · intro st nm
    by_cases h : nm ∈ st
    · refine ⟨st.filter (fun c => c ≠ nm), st.filter (fun c => c ≠ nm), ?_, ?_, rfl⟩
      · simp [delete_collection, client_delete_collection, delete_collection_wrap, h]
      · have habs : nm ∉ st.filter (fun c => c ≠ nm) := by
          simp [List.mem_filter]
        simp [delete_collection, client_delete_collection, delete_collection_wrap, habs]
    · refine ⟨st, st, ?_, ?_, rfl⟩ <;>
        simp [delete_collection, client_delete_collection, delete_collection_wrap, h]

/-- C9: `analyze` is a total function (always returns a reply, no
generation error escapes); on primary success it returns the primary reply;
if the primary invocation raises for any reason, the fallback direct call
is invoked with the identical prompt and the same `SYSTEM_PROMPT`
instruction; and if the fallback also raises, the returned reply is the
user-facing apology string embedding that error's message. -/
theorem analyze_fallback (primary fallbackGen : String → String → Except String String)
    (question : String) (chat_history : List ChatMessage)
    (context : String) (relevant_files : List String) :
    (∀ reply, primary SYSTEM_PROMPT
        (buildPrompt context (renderHistory chat_history) question) = Except.ok reply →
      analyze primary fallbackGen question chat_history context relevant_files =
        ⟨reply, relevant_files⟩) ∧
    (∀ e, primary SYSTEM_PROMPT
        (buildPrompt context (renderHistory chat_history) question) = Except.error e →
      analyze primary fallbackGen question chat_history context relevant_files =
        fallback_gemini_call fallbackGen
          (buildPrompt context (renderHistory chat_history) question) relevant_files) ∧
    (∀ e e2, primary SYSTEM_PROMPT
        (buildPrompt context (renderHistory chat_history) question) = Except.error e →
      fallbackGen SYSTEM_PROMPT
        (buildPrompt context (renderHistory chat_history) question) = Except.error e2 →
      analyze primary fallbackGen question chat_history context relevant_files =
        ⟨"I apologize, but I encountered an error analyzing the codebase: " ++ e2,
         relevant_files⟩) := by
  refine ⟨?_, ?_, ?_⟩
  · intro reply hp
    simp [analyze, hp]
  · intro e hp
    simp [analyze, hp]
  · intro e e2 hp hf
    simp [analyze, fallback_gemini_call, hp, hf]

/-- C9 witness: with a primary path and a fallback path that both raise,
`analyze` returns the apology embedding the fallback's error message. -/
theorem analyze_fallback_witness :
    analyze failPrimary failFallback "q" [] "ctx" [] =
      ⟨"I apologize, but I encountered an error analyzing the codebase: gemini down",
       []⟩ :=
  (analyze_fallback failPrimary failFallback "q" [] "ctx" []).2.2
    "agno boom" "gemini down" rfl rfl

/-- C10: Python's Latin-1 codec decodes every byte sequence (each of the
256 byte values has a codepoint), so the all-encodings-failed branch of
`read_file_content` is unreachable: the result is always the
newline-translated text of the UTF-8 decoding when that succeeds and of the
Latin-1 decoding otherwise - never the empty string via the final fallback
branch, and never an error. -/
theorem latin1_total_no_fallback (bs : List Byte) :
    latin1Decode bs = some (latin1String bs) ∧
    read_file_content bs =
      universalNewlines ((utf8Decode bs).getD (latin1String bs)) := by
  refine ⟨rfl, ?_⟩
  cases h1 : utf8Decode bs <;>
    simp [read_file_content, read_file_content_go, encodings, decode_with, h1,
      latin1Decode]
